import Mathlib

/-!
Verification development for `smart_open/s3.py` (file-like read/write access
to objects in a range-addressable object store).

The Python source is shallowly embedded: bytes are `List Nat`, stateful
objects become structures passed explicitly, fallible code returns
`Except PyErr`, and every store request performed by the code is recorded in
a `List Ev` trace.  The remote store itself is an external collaborator
(spec section 6): its range-GET / plain-GET / multipart semantics are modelled
as pure functions over the object's byte content.
-/

namespace S3

/-- Byte strings are lists of (unbounded) naturals; the code never performs
byte arithmetic, so no wrap-around modelling is needed. -/
abbrev Bytes := List Nat

/-- The backend `Error` dictionary carried by the wrapped `IOError` raised in
`_get` (fields used by `_open_body`: `Message` and `ActualObjectSize`). -/
structure BackendError where
  message : String
  actualObjectSize : Option Nat
  deriving DecidableEq, Repr

/-- Python exception kinds observable from the embedded code. -/
inductive PyErr
  | valueError
  | assertionError
  | attributeError
  | ioErrorWrapped : BackendError → PyErr
  | ioError
  | incompleteReadError
  | notImplementedError
  | unsupportedOperation
  | endpointConnectionError
  | clientError
  deriving DecidableEq, Repr

/-- Exception classes, for `except`-clause matching in `_retry_if_failed`. -/
inductive PyKind
  | valueError
  | assertionError
  | attributeError
  | ioError
  | incompleteReadError
  | notImplementedError
  | unsupportedOperation
  | endpointConnectionError
  | clientError
  deriving DecidableEq, Repr

def PyErr.kind : PyErr → PyKind
  | .valueError => .valueError
  | .assertionError => .assertionError
  | .attributeError => .attributeError
  | .ioErrorWrapped _ => .ioError
  | .ioError => .ioError
  | .incompleteReadError => .incompleteReadError
  | .notImplementedError => .notImplementedError
  | .unsupportedOperation => .unsupportedOperation
  | .endpointConnectionError => .endpointConnectionError
  | .clientError => .clientError

/-- Store requests issued by the embedded code.  `headObject` is the
metadata-only request of the abstract store contract (spec section 6); it is
part of the interface but, as the proofs show, never emitted by this code. -/
inductive Ev
  | rangeGet : Option Nat → Option Nat → Ev
  | plainGet : Ev
  | headObject : Ev
  | uploadPart : Nat → Bytes → Ev
  | completeMP : List (Nat × Bytes) → Ev
  | abortMP : Ev
  | putObject : Bytes → Ev
  deriving DecidableEq, Repr

/-- The remote object being read: its content, and whether the store's
range-not-satisfiable error responses carry the `ActualObjectSize` hint
(real S3 does, moto does not — see the comment in `_open_body`). -/
structure S3Object where
  content : Bytes
  sizeHintInError : Bool
  deriving DecidableEq, Repr

/-- `smart_open.s3._OUT_OF_RANGE`. -/
def OUT_OF_RANGE : String := "Requested Range Not Satisfiable"

/-- `smart_open.constants.WHENCE_START`. -/
def WHENCE_START : Nat := 0
/-- `smart_open.constants.WHENCE_CURRENT`. -/
def WHENCE_CURRENT : Nat := 1
/-- `smart_open.constants.WHENCE_END`. -/
def WHENCE_END : Nat := 2
/-- `smart_open.constants.WHENCE_CHOICES`. -/
def WHENCE_CHOICES : List Nat := [WHENCE_START, WHENCE_CURRENT, WHENCE_END]

/-- Response of a successful range GET: the partial-content body plus the
`ContentRange` fields the reader uses (`start` and `total length`, as
extracted by `smart_open.utils.parse_content_range`).  The range-string
encode/decode round trip of `smart_open.utils` is modelled structurally,
following standard HTTP range semantics (spec section 6). -/
structure GetResponse where
  body : Bytes
  contentRangeStart : Nat
  contentRangeLength : Nat
  deriving DecidableEq, Repr

/-- The wrapped `IOError` produced by `_get` when the store rejects a range
as not satisfiable. -/
def rangeError (o : S3Object) : PyErr :=
  .ioErrorWrapped
    ⟨OUT_OF_RANGE, if o.sizeHintInError then some o.content.length else none⟩

/-- Store collaborator: GET with a byte-range `(start, stop)` per HTTP range
semantics — `some s, none` is `bytes=s-`, `some s, some e` is `bytes=s-e`
(inclusive), `none, some n` is the suffix form `bytes=-n`.  A range is not
satisfiable when its start lies at or beyond the object's length (for the
suffix form: when the suffix is zero or the object is empty). -/
def storeRangeGet (o : S3Object) (start stop : Option Nat) :
    Except PyErr GetResponse :=
  let L := o.content.length
  match start, stop with
  | some s, none =>
      if s < L then .ok ⟨o.content.drop s, s, L⟩ else .error (rangeError o)
  | some s, some e =>
      if s < L then .ok ⟨(o.content.drop s).take (e + 1 - s), s, L⟩
      else .error (rangeError o)
  | none, some n =>
      if 0 < n ∧ 0 < L then .ok ⟨o.content.drop (L - min n L), L - min n L, L⟩
      else .error (rangeError o)
  | none, none => .error (rangeError o)

/-- Store collaborator: GET without a range; returns the `ContentLength`
header and the full body. -/
def storePlainGet (o : S3Object) : Nat × Bytes :=
  (o.content.length, o.content)

/-- State of `_SeekableRawReader`: known content length, raw position, and
the open body (the bytes still available on the open connection), `none`
when the next read must open a new range request. -/
structure RawReader where
  content_length : Option Nat
  position : Nat
  body : Option Bytes
  deriving DecidableEq, Repr

/-- `_SeekableRawReader._open_body`: open a connection for the given byte
range (defaulting to the current position), recording the store requests
made.  On a range-not-satisfiable error it recovers by resolving the
object's true size — from the `ActualObjectSize` hint if present, otherwise
through a second, un-ranged GET — and presents an empty body at EOF. -/
def RawReader._open_body (r : RawReader) (o : S3Object)
    (start stop : Option Nat) : Except PyErr RawReader × List Ev :=
  let p : Option Nat × Option Nat :=
    if start.isNone ∧ stop.isNone then (some r.position, none) else (start, stop)
  match storeRangeGet o p.1 p.2 with
  | .ok resp =>
      (.ok { r with content_length := some resp.contentRangeLength,
                    position := resp.contentRangeStart,
                    body := some resp.body },
       [.rangeGet p.1 p.2])
  | .error ioe =>
      match ioe with
      | .ioErrorWrapped be =>
          if be.message ≠ OUT_OF_RANGE then (.error ioe, [.rangeGet p.1 p.2])
          else
            match be.actualObjectSize with
            | some n =>
                (.ok { r with content_length := some n, position := n,
                              body := some [] },
                 [.rangeGet p.1 p.2])
            | none =>
                -- moto lacks ActualObjectSize: fall back to a second,
                -- un-ranged GET and use its ContentLength.
                let len := (storePlainGet o).1
                (.ok { r with content_length := some len, position := len,
                              body := some [] },
                 [.rangeGet p.1 p.2, .plainGet])
      | _ => (.error ioe, [.rangeGet p.1 p.2])

/-- `_SeekableRawReader.seek`.  Returns the new position.  Note the source's
`assert self._content_length` on the saved-API-call path: a falsy
content length (`None` or `0`) raises `AssertionError` there. -/
def RawReader.seek (r : RawReader) (o : S3Object) (offset : Int)
    (whence : Nat) : Except PyErr (RawReader × Nat) × List Ev :=
  if whence ∉ WHENCE_CHOICES then (.error .valueError, [])
  else
    let r := { r with body := none }
    let start : Option Nat :=
      if whence = WHENCE_START then some (max 0 offset).toNat
      else if whence = WHENCE_CURRENT then
        some (max 0 (offset + (r.position : Int))).toNat
      else none
    let stop : Option Nat :=
      if whence = WHENCE_END then some (max 0 (-offset)).toNat else none
    let reached_eof : Bool :=
      match r.content_length with
      | none => false
      | some cl =>
          (match start with | some s => decide (s ≥ cl) | none => false)
          || decide (stop = some 0)
    if reached_eof then
      let r := { r with body := some [] }
      match r.content_length with
      | some (cl + 1) => (.ok ({ r with position := cl + 1 }, cl + 1), [])
      | _ => (.error .assertionError, [])
    else
      match r._open_body o start stop with
      | (.ok r', evs) => (.ok (r', r'.position), evs)
      | (.error e, evs) => (.error e, evs)

/-- `_SeekableRawReader._read_from_body`: one read from the open body.  The
environment's fault schedule decides whether this particular transport read
is interrupted (`IncompleteReadError`); each call consumes one schedule
entry.  Returns the bytes delivered and the rest of the body. -/
def RawReader._read_from_body (r : RawReader) (faults : List Bool)
    (size : Int) : Except PyErr (Bytes × Bytes) × List Bool :=
  match r.body with
  | none => (.error .assertionError, faults)
  | some b =>
      if faults.headD false then (.error .incompleteReadError, faults.tail)
      else if size < 0 then (.ok (b, []), faults.tail)
      else (.ok (b.take size.toNat, b.drop size.toNat), faults.tail)

/-- `_SeekableRawReader.read`: open the body if none is open, short-circuit
at EOF, and on an `IncompleteReadError` reopen a fresh range at the current
position and retry the read exactly once more.  Note the source's
`assert self._content_length`: a content length of `0` raises
`AssertionError` here. -/
def RawReader.read (r : RawReader) (o : S3Object) (faults : List Bool)
    (size : Int) : Except PyErr (RawReader × Bytes) × List Bool × List Ev :=
  let opened : Except PyErr RawReader × List Ev :=
    match r.body with
    | none => r._open_body o none none
    | some _ => (.ok r, [])
  match opened with
  | (.error e, evs0) => (.error e, faults, evs0)
  | (.ok r, evs0) =>
      match r.content_length with
      | some (cl + 1) =>
          if r.position ≥ cl + 1 then (.ok (r, []), faults, evs0)
          else
            match r._read_from_body faults size with
            | (.ok (bin, rest), faults') =>
                (.ok ({ r with position := r.position + bin.length,
                               body := some rest }, bin),
                 faults', evs0)
            | (.error .incompleteReadError, faults') =>
                match r._open_body o none none with
                | (.ok r2, evs1) =>
                    match r2._read_from_body faults' size with
                    | (.ok (bin, rest), faults'') =>
                        (.ok ({ r2 with
                                  position := r2.position + bin.length,
                                  body := some rest }, bin),
                         faults'', evs0 ++ evs1)
                    | (.error e, faults'') => (.error e, faults'', evs0 ++ evs1)
                | (.error e, evs1) => (.error e, faults', evs0 ++ evs1)
            | (.error e, faults') => (.error e, faults', evs0)
      | _ => (.error .assertionError, faults, evs0)

/-! ### Buffered reader (`Reader`)

The lookahead buffer comes from `smart_open.bytebuffer.ByteBuffer`, a module
of this repository that is not under `src/`; its operations are modelled
from the spec (section 3). -/

/-- Modelled from the spec: `smart_open.bytebuffer.ByteBuffer.readline`
("bytes up to and including delimiter, or all remaining if none found") —
split the buffer at the first occurrence of the terminator, keeping the
terminator with the extracted part; when the terminator does not occur,
the whole buffer is extracted. -/
def bufReadline (term : Bytes) : Bytes → Bytes × Bytes
  | [] => ([], [])
  | x :: xs =>
      if term.isPrefixOf (x :: xs) then (term, (x :: xs).drop term.length)
      else
        let r := bufReadline term xs
        (x :: r.1, r.2)

/-- State of the buffered `Reader`: the raw reader, the logical position
(`self._current_pos`), the lookahead buffer contents with its configured
chunk size, the EOF flag, and the line terminator. -/
structure Reader where
  raw : RawReader
  current_pos : Nat
  buffer : Bytes
  chunk_size : Nat
  eof : Bool
  line_terminator : Bytes
  deriving DecidableEq, Repr

/-- A freshly constructed `Reader` with `defer_seek=True`: no store request
has been issued yet (`Reader.__init__`). -/
def Reader.fresh (chunk : Nat) (term : Bytes) : Reader :=
  { raw := ⟨none, 0, none⟩, current_pos := 0, buffer := [],
    chunk_size := chunk, eof := false, line_terminator := term }

/-- `Reader._read_from_buffer`: remove at most `size` bytes from the buffer
(all of it when `size < 0`) and advance the logical position. -/
def Reader._read_from_buffer (st : Reader) (size : Int) : Bytes × Reader :=
  let n := if size ≥ 0 then size.toNat else st.buffer.length
  let part := st.buffer.take n
  (part, { st with buffer := st.buffer.drop n,
                   current_pos := st.current_pos + part.length })

/-- Loop body of `Reader._fill_buffer`: while the buffer holds fewer than
`target` bytes and EOF has not been seen, fill the buffer from the raw
reader (`ByteBuffer.fill` reads one chunk — modelled from the spec — i.e.
one `raw.read(chunk_size)` call); a zero-byte fill sets the EOF flag.  The
`fuel` argument only bounds the iteration count; every iteration either
grows the buffer towards `target` or sets the EOF flag, so the bound chosen
in `Reader._fill_buffer` is never exhausted. -/
def Reader.fillLoop (o : S3Object) (target : Nat) :
    Nat → Reader → List Bool → Except PyErr Reader × List Bool × List Ev
  | 0, st, faults => (.ok st, faults, [])
  | fuel + 1, st, faults =>
      if st.buffer.length < target ∧ ¬st.eof then
        match st.raw.read o faults (st.chunk_size : Int) with
        | (.ok (raw', bin), faults', evs) =>
            let st' :=
              if bin.length = 0 then { st with raw := raw', eof := true }
              else { st with raw := raw', buffer := st.buffer ++ bin }
            match Reader.fillLoop o target fuel st' faults' with
            | (res, faults'', evs') => (res, faults'', evs ++ evs')
        | (.error e, faults', evs) => (.error e, faults', evs)
      else (.ok st, faults, [])

/-- `Reader._fill_buffer`. -/
def Reader._fill_buffer (st : Reader) (o : S3Object) (faults : List Bool)
    (size : Int) : Except PyErr Reader × List Bool × List Ev :=
  let target := max size.toNat st.chunk_size
  Reader.fillLoop o target (target + 2) st faults

/-- `Reader.read`: size `0` returns immediately; a negative size drains the
buffer, reads the raw reader to exhaustion and pins the position to the
known content length; otherwise the buffer is served first and refilled
only when it cannot satisfy the request. -/
def Reader.read (st : Reader) (o : S3Object) (faults : List Bool)
    (size : Int) : Except PyErr (Reader × Bytes) × List Bool × List Ev :=
  if size = 0 then (.ok (st, []), faults, [])
  else if size < 0 then
    let pr := st._read_from_buffer (-1)
    match pr.2.raw.read o faults (-1) with
    | (.ok (raw', bin), faults', evs) =>
        (.ok ({ pr.2 with raw := raw',
                          current_pos := raw'.content_length.getD 0 },
              pr.1 ++ bin),
         faults', evs)
    | (.error e, faults', evs) => (.error e, faults', evs)
  else if st.buffer.length ≥ size.toNat then
    let pr := st._read_from_buffer size
    (.ok (pr.2, pr.1), faults, [])
  else if st.eof then
    let pr := st._read_from_buffer (-1)
    (.ok (pr.2, pr.1), faults, [])
  else
    match st._fill_buffer o faults size with
    | (.ok st', faults', evs) =>
        let pr := st'._read_from_buffer size
        (.ok (pr.2, pr.1), faults', evs)
    | (.error e, faults', evs) => (.error e, faults', evs)

/-- `Reader.tell`. -/
def Reader.tell (st : Reader) : Nat := st.current_pos

/-- `Reader.seek`: normalize CURRENT to an absolute START offset using the
reader's own logical position, delegate to the raw reader, clear the
lookahead buffer and recompute the EOF flag (`pos == content_length`, which
is `False` whenever the content length is still unknown). -/
def Reader.seek (st : Reader) (o : S3Object) (offset : Int) (whence : Nat) :
    Except PyErr (Reader × Nat) × List Ev :=
  let a : Int × Nat :=
    if whence = WHENCE_CURRENT then (offset + (st.current_pos : Int), WHENCE_START)
    else (offset, whence)
  match st.raw.seek o a.1 a.2 with
  | (.ok (raw', pos), evs) =>
      (.ok ({ st with raw := raw', current_pos := pos, buffer := [],
                      eof := decide (some pos = raw'.content_length) }, pos),
       evs)
  | (.error e, evs) => (.error e, evs)

/-- Loop body of `Reader.readline`: extract from the buffer up to and
including the terminator, refilling the buffer when the line is not yet
complete; stop once a part ends with the terminator, or at EOF with an
empty buffer.  As with `fillLoop`, `fuel` only bounds the iterations and
the bound chosen in `Reader.readline` dominates the loop's variant
(buffered bytes + bytes still obtainable from the store). -/
def Reader.readlineLoop (o : S3Object) :
    Nat → Reader → List Bool → Bytes →
    Except PyErr (Reader × Bytes) × List Bool × List Ev
  | 0, st, faults, line => (.ok (st, line), faults, [])
  | fuel + 1, st, faults, line =>
      if st.eof ∧ st.buffer = [] then (.ok (st, line), faults, [])
      else
        let pr := bufReadline st.line_terminator st.buffer
        let st := { st with buffer := pr.2,
                            current_pos := st.current_pos + pr.1.length }
        let line := line ++ pr.1
        if st.line_terminator.isSuffixOf pr.1 then (.ok (st, line), faults, [])
        else
          match st._fill_buffer o faults (-1) with
          | (.ok st', faults', evs) =>
              match Reader.readlineLoop o fuel st' faults' line with
              | (res, faults'', evs') => (res, faults'', evs ++ evs')
          | (.error e, faults', evs) => (.error e, faults', evs)

/-- `Reader.readline`: any limit other than `-1` raises
`NotImplementedError` before touching any state or issuing any request;
the unlimited form reads up to and including the line terminator. -/
def Reader.readline (st : Reader) (o : S3Object) (faults : List Bool)
    (limit : Int) : Except PyErr (Reader × Bytes) × List Bool × List Ev :=
  if limit ≠ -1 then (.error .notImplementedError, faults, [])
  else
    Reader.readlineLoop o (2 * (st.buffer.length + o.content.length) + 4)
      st faults []

/-! ### Multipart writer (`MultipartWriter`)

The staging buffer (`io.BytesIO`) is a byte list; `self._buf.tell()` is its
length.  The store's opaque per-part `ETag` is modelled as the uploaded
bytes themselves, so a recorded part is `(part_number, etag)` with the etag
carrying the part's content. -/

/-- State of `MultipartWriter`: staging buffer, configured minimum part
size, running byte/part totals, recorded `(PartNumber, ETag)` entries, and
the multipart-session handle (`self._mp`, `none` once closed/aborted). -/
structure MPWriter where
  buf : Bytes
  min_part_size : Nat
  total_bytes : Nat
  total_parts : Nat
  parts : List (Nat × Bytes)
  mp : Option Unit
  deriving DecidableEq, Repr

/-- A freshly constructed `MultipartWriter` (multipart session initiated). -/
def MPWriter.fresh (minPartSize : Nat) : MPWriter :=
  { buf := [], min_part_size := minPartSize, total_bytes := 0,
    total_parts := 0, parts := [], mp := some () }

/-- `MultipartWriter.closed` property. -/
def MPWriter.closed (w : MPWriter) : Bool := w.mp.isNone

/-- `MultipartWriter.tell`. -/
def MPWriter.tell (w : MPWriter) : Nat := w.total_bytes

/-- `MultipartWriter._upload_next_part`: assign the next sequential part
number, upload the staged bytes as one part (through `_retry_if_failed`,
which is transparent when the store accepts the upload), record
`(part_number, etag)`, and reset the staging buffer.  Accessing
`self._mp.Part` with no session in progress raises `AttributeError`. -/
def MPWriter._upload_next_part (w : MPWriter) :
    Except PyErr (MPWriter × List Ev) :=
  match w.mp with
  | none => .error .attributeError
  | some _ =>
      let partNum := w.total_parts + 1
      .ok ({ w with parts := w.parts ++ [(partNum, w.buf)],
                    total_parts := w.total_parts + 1,
                    buf := [] },
           [.uploadPart partNum w.buf])

/-- `MultipartWriter.write`: append to the staging buffer, add to the byte
total, and flush a part exactly when the staging buffer has reached the
configured minimum part size. -/
def MPWriter.write (w : MPWriter) (b : Bytes) :
    Except PyErr (MPWriter × Nat × List Ev) :=
  let w1 := { w with buf := w.buf ++ b,
                     total_bytes := w.total_bytes + b.length }
  if w1.buf.length ≥ w1.min_part_size then
    match w1._upload_next_part with
    | .ok (w2, evs) => .ok (w2, b.length, evs)
    | .error e => .error e
  else .ok (w1, b.length, [])

/-- `MultipartWriter.close`: flush any remaining staged bytes as a final
part; then, with a nonzero byte total, issue the multipart completion with
the accumulated part list; with a zero byte total, abort the multipart
session and perform a single empty-body direct PUT instead; finally drop
the session handle. -/
def MPWriter.close (w : MPWriter) : Except PyErr (MPWriter × List Ev) :=
  let step : Except PyErr (MPWriter × List Ev) :=
    if w.buf.length ≠ 0 then w._upload_next_part else .ok (w, [])
  match step with
  | .error e => .error e
  | .ok (w1, ev1) =>
      if w1.total_bytes ≠ 0 ∧ w1.mp.isSome then
        .ok ({ w1 with mp := none }, ev1 ++ [.completeMP w1.parts])
      else if w1.mp.isSome then
        .ok ({ w1 with mp := none }, ev1 ++ [.abortMP, .putObject []])
      else .ok ({ w1 with mp := none }, ev1)

/-- `MultipartWriter.terminate`: abort the session unconditionally
(`assert self._mp` fails when no session is in progress). -/
def MPWriter.terminate (w : MPWriter) : Except PyErr (MPWriter × List Ev) :=
  match w.mp with
  | none => .error .assertionError
  | some _ => .ok ({ w with mp := none }, [.abortMP])

/-- Store collaborator: effect of one writer-side request on the object
stored at the writer's key (`none` = no object).  A multipart completion
assembles the object from the submitted parts in the submitted order; an
abort leaves no object behind by itself. -/
def applyEv (obj : Option Bytes) (e : Ev) : Option Bytes :=
  match e with
  | .putObject b => some b
  | .completeMP ps => some (ps.map Prod.snd).flatten
  | _ => obj

/-- The object stored at the writer's key after a trace of requests,
starting from no object. -/
def storeAfter (evs : List Ev) : Option Bytes :=
  evs.foldl applyEv none

/-- Run a sequence of `write` calls, accumulating the request trace. -/
def writeSeq (w : MPWriter) : List Bytes → Except PyErr (MPWriter × List Ev)
  | [] => .ok (w, [])
  | b :: bs =>
      match w.write b with
      | .ok (w', _, evs) =>
          match writeSeq w' bs with
          | .ok (w'', evs') => .ok (w'', evs ++ evs')
          | .error e => .error e
      | .error e => .error e

/-! ### Retry wrapper (`_retry_if_failed`) -/

/-- `smart_open.s3._UPLOAD_ATTEMPTS`. -/
def UPLOAD_ATTEMPTS : Nat := 6
/-- `smart_open.s3._SLEEP_SECONDS`. -/
def SLEEP_SECONDS : Nat := 10

/-- The default retryable set: endpoint-unreachable/connection errors only
(`exceptions = [botocore.exceptions.EndpointConnectionError]`). -/
def defaultRetryExceptions : List PyKind := [.endpointConnectionError]

/-- Whether an outcome is an error matching the retryable set (the
`except tuple(exceptions)` clause). -/
def retryableB {α : Type} (exc : List PyKind) : Except PyErr α → Bool
  | .error e => decide (e.kind ∈ exc)
  | .ok _ => false

/-- Attempt loop of `_retry_if_failed`: the operation is a function of the
attempt index; the second component of the result is the total seconds
slept.  Matching errors are retried after sleeping, a non-matching error
propagates at once, and exhausting all attempts raises a plain `IOError`
(the `for`/`else` arm). -/
def retryGo {α : Type} (op : Nat → Except PyErr α) (sleepSeconds : Nat)
    (exc : List PyKind) : Nat → Nat → Nat → Except PyErr α × Nat
  | _, 0, slept => (.error .ioError, slept)
  | attempt, fuel + 1, slept =>
      match op attempt with
      | .ok a => (.ok a, slept)
      | .error e =>
          if e.kind ∈ exc then
            retryGo op sleepSeconds exc (attempt + 1) fuel
              (slept + sleepSeconds)
          else (.error e, slept)

/-- `_retry_if_failed`. -/
def _retry_if_failed {α : Type} (op : Nat → Except PyErr α) (attempts : Nat)
    (sleepSeconds : Nat) (exc : List PyKind) : Except PyErr α × Nat :=
  retryGo op sleepSeconds exc 0 attempts 0

/-! ### Bulk download pipeline (`iter_bucket`)

The worker pool (`smart_open.concurrency.create_pool` /
`pool.imap_unordered`) is repository code not under `src/`; following the
spec (sections 4.6 and 9), it is modelled as delivering the downloaded
results in an arbitrary order: theorems quantify over every permutation of
the listed keys' results, which covers every worker count. -/

/-- `_list_bucket`: page through the store's listing (one recursive step
per `list_objects_v2` response; the continuation token is present exactly
while pages remain; a page without `Contents` contributes nothing) and
apply `accept_key` to each key.  The store has already restricted the
listing to the requested prefix (spec section 6). -/
def _list_bucket : List (List String) → (String → Bool) → List String
  | [], _ => []
  | page :: rest, accept => page.filter accept ++ _list_bucket rest accept

/-- `_download_key` on the fault-free path: fetch the key's full content
(content function = the store's objects under the listed container). -/
def _download_key (content : String → Bytes) (k : String) : String × Bytes :=
  (k, content k)

/-- Consumption loop of `iter_bucket`: yield each delivered result, then
stop as soon as `key_no + 1 ≥ key_limit`.  Returns the yielded results and
the delivered-but-never-requested remainder (the results the pipeline
stops consuming once the limit is reached; leaving the loop exits the
pool's scope and tears the workers down). -/
def iterLoop {α : Type} (keyLimit : Option Nat) :
    List α → Nat → List α × List α
  | [], _ => ([], [])
  | r :: rs, keyNo =>
      match keyLimit with
      | some n =>
          if keyNo + 1 ≥ n then ([r], rs)
          else
            let pr := iterLoop keyLimit rs (keyNo + 1)
            (r :: pr.1, pr.2)
      | none =>
          let pr := iterLoop keyLimit rs (keyNo + 1)
          (r :: pr.1, pr.2)

/-- `iter_bucket`, applied to the results as the pool delivers them
(`delivered` is some permutation of the accepted keys' download results). -/
def iter_bucket (delivered : List (String × Bytes)) (keyLimit : Option Nat) :
    List (String × Bytes) × List (String × Bytes) :=
  iterLoop keyLimit delivered 0

/-! ## Theorems -/

/-- For a nonzero known content length the saved-API-call path of
`_SeekableRawReader.seek` behaves as specified: a seek to an absolute start
at or beyond the content length issues no store request and leaves the
stream at `content_length` with an empty body. -/
theorem seek_past_eof_saves_call (r : RawReader) (o : S3Object) (offset : Int)
    (cl : Nat) (hcl : r.content_length = some (cl + 1))
    (hoff : cl + 1 ≤ (max 0 offset).toNat) :
    RawReader.seek r o offset WHENCE_START =
      (.ok ({ r with body := some [], position := cl + 1 }, cl + 1), []) := by
  unfold RawReader.seek
  simp [WHENCE_CHOICES, WHENCE_START, WHENCE_CURRENT, WHENCE_END, hcl, hoff]

/-- At a position at or beyond a nonzero known content length, with a body
installed, `_SeekableRawReader.read` returns empty bytes, changes nothing
and issues no store request — and therefore does so again on a second
identical read. -/
theorem read_at_eof_idempotent (r : RawReader) (o : S3Object)
    (faults : List Bool) (size : Int) (cl : Nat) (b : Bytes)
    (hcl : r.content_length = some (cl + 1)) (hpos : r.position ≥ cl + 1)
    (hbody : r.body = some b) :
    RawReader.read r o faults size = (.ok (r, []), faults, []) := by
  unfold RawReader.read
  simp [hbody, hcl, hpos]

/-- Claim C1 (code_bug evaluation): a raw reader whose `content_length` is
already known to be `0` — a state the reader reaches by opening any range on
an empty object, shown by the first conjunct — does not short-circuit a
seek to start `0 ≥ content_length` into an EOF state: the source's
`assert self._content_length` sees a falsy (zero) length and raises
`AssertionError` (second conjunct), and a read in that state fails the same
way instead of returning empty bytes (third conjunct).  No store request is
made on either failing call. -/
theorem claim1_seek_at_known_zero_length_raises :
    RawReader._open_body ⟨none, 0, none⟩ ⟨[], true⟩ none none
      = (.ok ⟨some 0, 0, some []⟩, [.rangeGet (some 0) none]) ∧
    RawReader.seek ⟨some 0, 0, some []⟩ ⟨[], true⟩ 0 WHENCE_START
      = (.error .assertionError, []) ∧
    RawReader.read ⟨some 0, 0, some []⟩ ⟨[], true⟩ [] (-1)
      = (.error .assertionError, [], []) := by
  refine ⟨rfl, rfl, rfl⟩

/-- The only error `storeRangeGet` produces is the range-not-satisfiable
rejection. -/
theorem storeRangeGet_error_eq (o : S3Object) (a b : Option Nat) (e : PyErr)
    (h : storeRangeGet o a b = .error e) : e = rangeError o := by
  unfold storeRangeGet at h
  cases a <;> cases b <;> simp only [] at h <;>
    first
      | (split at h <;> simp_all)
      | simp_all

/-- Claim C2 (counterexample): on a store whose range-not-satisfiable error
carries no size hint, `_open_body` at a start beyond the object's size does
resolve `position = content_length` to the real size, but the size is
obtained by a second, un-ranged GET of the object (`plainGet`) — the trace
contains no metadata-only request (`headObject`), contrary to the claim. -/
theorem claim2_no_metadata_only_request :
    RawReader._open_body ⟨none, 0, none⟩ ⟨[7, 7], false⟩ (some 5) none
      = (.ok ⟨some 2, 2, some []⟩, [.rangeGet (some 5) none, .plainGet]) ∧
    Ev.headObject ∉ ([.rangeGet (some 5) none, .plainGet] : List Ev) := by
  exact ⟨rfl, by decide⟩

/-- Claim C2 (amended): whenever the store rejects the requested range as
not satisfiable, `_open_body` does not propagate the error: it sets
`position = content_length` to the object's real size — from the
`ActualObjectSize` hint embedded in the error when present, otherwise
through a second, un-ranged GET of the object (not a metadata-only
request) — and installs an empty body, so the stream presents an EOF
state. -/
theorem claim2_range_unsatisfiable_recovers (r : RawReader) (o : S3Object)
    (start stop : Option Nat) (e : PyErr)
    (hnn : ¬(start = none ∧ stop = none))
    (herr : storeRangeGet o start stop = .error e) :
    RawReader._open_body r o start stop =
      (.ok { r with content_length := some o.content.length,
                    position := o.content.length, body := some [] },
       .rangeGet start stop ::
         (if o.sizeHintInError then [] else [.plainGet])) ∧
    Ev.headObject ∉
      (Ev.rangeGet start stop ::
        (if o.sizeHintInError then [] else [.plainGet]) : List Ev) := by
  have he : e = rangeError o := storeRangeGet_error_eq o start stop e herr
  subst he
  have hpair : (if start.isNone ∧ stop.isNone then
      ((some r.position : Option Nat), (none : Option Nat))
      else (start, stop)) = (start, stop) := by
    rcases start with _ | s
    · rcases stop with _ | t
      · exact absurd ⟨rfl, rfl⟩ hnn
      · simp
    · simp
  constructor
  · unfold RawReader._open_body
    rw [hpair]
    dsimp only
    rw [herr]
    unfold rangeError
    cases h : o.sizeHintInError <;> simp [storePlainGet]
  · cases o.sizeHintInError <;> simp

/-- Witness for C2: the recovery theorem applied to a two-byte object with
the size hint present, at a range starting at byte 5. -/
theorem claim2_range_unsatisfiable_recovers_witness :
    RawReader._open_body ⟨none, 0, none⟩ ⟨[7, 7], true⟩ (some 5) none =
      (.ok ⟨some 2, 2, some []⟩, [.rangeGet (some 5) none]) := by
  have h := claim2_range_unsatisfiable_recovers ⟨none, 0, none⟩ ⟨[7, 7], true⟩
    (some 5) none (rangeError ⟨[7, 7], true⟩) (by simp) rfl
  simpa using h.1

/-- Claim C9: in every state of the buffered `Reader` — including a freshly
constructed reader with deferred seek that has issued no store request —
`read(0)` returns empty bytes at once, issues no store request, consumes no
fault-schedule entry, and returns the state unchanged (so `tell()`, the
lookahead buffer and the EOF flag are all untouched). -/
theorem claim9_read_zero_is_noop (st : Reader) (o : S3Object)
    (faults : List Bool) :
    Reader.read st o faults 0 = (.ok (st, []), faults, []) := rfl

/-- Claim C4: closing the multipart writer with a zero byte total aborts
the multipart session and performs a single empty-body direct PUT, with no
error; applying that trace to the store leaves an object present whose
content is empty (a full read of it returns zero bytes).  With a nonzero
byte total, `close` flushes any remaining staged bytes as a final part and
issues the multipart completion with the accumulated part list. -/
theorem claim4_close_zero_and_nonzero :
    (∀ w : MPWriter, w.mp = some () → w.buf = [] → w.total_bytes = 0 →
      MPWriter.close w = .ok ({ w with mp := none },
        [.abortMP, .putObject []]) ∧
      storeAfter [Ev.abortMP, Ev.putObject []] = some []) ∧
    (∀ w : MPWriter, w.mp = some () → w.total_bytes ≠ 0 →
      MPWriter.close w =
        if w.buf = [] then .ok ({ w with mp := none }, [.completeMP w.parts])
        else .ok ({ w with buf := [],
                           total_parts := w.total_parts + 1,
                           parts := w.parts ++ [(w.total_parts + 1, w.buf)],
                           mp := none },
             [.uploadPart (w.total_parts + 1) w.buf,
              .completeMP (w.parts ++ [(w.total_parts + 1, w.buf)])])) := by
  constructor
  · rintro ⟨buf, m, tb, tp, ps, mp⟩ hmp hbuf htb
    simp only [] at hmp hbuf htb
    subst hmp hbuf htb
    exact ⟨rfl, rfl⟩
  · rintro ⟨buf, m, tb, tp, ps, mp⟩ hmp htb
    simp only [] at hmp htb
    subst hmp
    by_cases hb : buf = []
    · subst hb
      simp [MPWriter.close, htb]
    · simp [MPWriter.close, MPWriter._upload_next_part, hb, htb]

/-- Witness for C4: both branches at concrete writers — a fresh writer
(zero bytes), and a writer holding 1 staged byte with byte total 1. -/
theorem claim4_close_zero_and_nonzero_witness :
    (MPWriter.close (MPWriter.fresh 5) =
       .ok (⟨[], 5, 0, 0, [], none⟩, [.abortMP, .putObject []]) ∧
     storeAfter [Ev.abortMP, Ev.putObject []] = some []) ∧
    MPWriter.close ⟨[9], 5, 1, 0, [], some ()⟩ =
      .ok (⟨[], 5, 1, 1, [(1, [9])], none⟩,
           [.uploadPart 1 [9], .completeMP [(1, [9])]]) := by
  refine ⟨claim4_close_zero_and_nonzero.1 (MPWriter.fresh 5) rfl rfl rfl, ?_⟩
  have h := claim4_close_zero_and_nonzero.2 ⟨[9], 5, 1, 0, [], some ()⟩ rfl
    (by decide)
  simpa using h

/-- A writer that is already closed and holds no staged bytes: `close` is a
no-op issuing no store request. -/
theorem close_of_closed_empty (w : MPWriter) (hmp : w.mp = none)
    (hbuf : w.buf = []) : MPWriter.close w = .ok (w, []) := by
  rcases w with ⟨buf, m, tb, tp, ps, mp⟩
  simp only [] at hmp hbuf
  subst hmp hbuf
  simp [MPWriter.close]

/-- Claim C10: after a successful `close()` of the multipart writer the
`closed` property is `True`, and a second `close()` is a no-op: it performs
no store operation (no part upload, completion, abort or put) and returns
the writer unchanged — in particular its recorded parts, byte total and
part total are untouched. -/
theorem claim10_close_idempotent (w w' : MPWriter) (ev : List Ev)
    (h : MPWriter.close w = .ok (w', ev)) :
    w'.closed = true ∧ MPWriter.close w' = .ok (w', []) := by
  have hw' : w'.mp = none ∧ w'.buf = [] := by
    rcases w with ⟨buf, m, tb, tp, ps, mp⟩
    cases mp
    · by_cases hb : buf = []
      · subst hb
        simp [MPWriter.close] at h
        simp [← h.1]
      · simp [MPWriter.close, MPWriter._upload_next_part, hb] at h
    · by_cases hb : buf = []
      · subst hb
        by_cases htb : tb = 0
        · subst htb
          simp [MPWriter.close] at h
          simp [← h.1]
        · simp [MPWriter.close, htb] at h
          simp [← h.1]
      · by_cases htb : tb = 0
        · subst htb
          simp [MPWriter.close, MPWriter._upload_next_part, hb] at h
          simp [← h.1]
        · simp [MPWriter.close, MPWriter._upload_next_part, hb, htb] at h
          simp [← h.1]
  refine ⟨?_, close_of_closed_empty w' hw'.1 hw'.2⟩
  simp [MPWriter.closed, hw'.1]

/-- Witness for C10: the idempotence theorem applied to the close of a
fresh writer. -/
theorem claim10_close_idempotent_witness :
    MPWriter.closed ⟨[], 5, 0, 0, [], none⟩ = true ∧
    MPWriter.close ⟨[], 5, 0, 0, [], none⟩ =
      .ok (⟨[], 5, 0, 0, [], none⟩, []) :=
  claim10_close_idempotent (MPWriter.fresh 5) ⟨[], 5, 0, 0, [], none⟩
    [.abortMP, .putObject []] rfl

/-- Claim C5: with minimum part size 5, three writes of 3 bytes each
followed by `close()` upload exactly two parts — 6 bytes then 3 bytes —
with contiguous increasing part numbers 1 and 2 in write order, and
`tell() = total_bytes = 9` after close (first conjunct).  In general a
`write` flushes a part exactly when the staging buffer reaches the
configured minimum part size (second conjunct). -/
theorem claim5_min_part_scenario :
    (writeSeq (MPWriter.fresh 5) [[1, 2, 3], [4, 5, 6], [7, 8, 9]] =
       .ok (⟨[7, 8, 9], 5, 9, 1, [(1, [1, 2, 3, 4, 5, 6])], some ()⟩,
            [.uploadPart 1 [1, 2, 3, 4, 5, 6]]) ∧
     MPWriter.close ⟨[7, 8, 9], 5, 9, 1, [(1, [1, 2, 3, 4, 5, 6])], some ()⟩ =
       .ok (⟨[], 5, 9, 2, [(1, [1, 2, 3, 4, 5, 6]), (2, [7, 8, 9])], none⟩,
            [.uploadPart 2 [7, 8, 9],
             .completeMP [(1, [1, 2, 3, 4, 5, 6]), (2, [7, 8, 9])]]) ∧
     MPWriter.tell
       ⟨[], 5, 9, 2, [(1, [1, 2, 3, 4, 5, 6]), (2, [7, 8, 9])], none⟩ = 9 ∧
     List.map Prod.fst [(1, [1, 2, 3, 4, 5, 6]), (2, ([7, 8, 9] : Bytes))]
       = [1, 2]) ∧
    (∀ (w : MPWriter) (b : Bytes), w.mp = some () →
      MPWriter.write w b =
        if w.min_part_size ≤ w.buf.length + b.length then
          .ok ({ w with buf := [],
                        total_bytes := w.total_bytes + b.length,
                        total_parts := w.total_parts + 1,
                        parts := w.parts ++ [(w.total_parts + 1, w.buf ++ b)] },
               b.length, [.uploadPart (w.total_parts + 1) (w.buf ++ b)])
        else
          .ok ({ w with buf := w.buf ++ b,
                        total_bytes := w.total_bytes + b.length },
               b.length, [])) := by
  refine ⟨⟨rfl, rfl, rfl, rfl⟩, ?_⟩
  rintro ⟨buf, m, tb, tp, ps, mp⟩ b hmp
  simp only [] at hmp
  subst hmp
  by_cases hge : m ≤ buf.length + b.length
  · simp [MPWriter.write, MPWriter._upload_next_part, hge]
  · simp [MPWriter.write, MPWriter._upload_next_part, hge]

/-- Witness for C5: the flush-threshold conjunct at a writer holding 2
staged bytes receiving 3 more with minimum part size 5. -/
theorem claim5_min_part_scenario_witness :
    MPWriter.write ⟨[1, 2], 5, 2, 0, [], some ()⟩ [3, 4, 5] =
      .ok (⟨[], 5, 5, 1, [(1, [1, 2, 3, 4, 5])], some ()⟩, 3,
           [.uploadPart 1 [1, 2, 3, 4, 5]]) := by
  have h := claim5_min_part_scenario.2 ⟨[1, 2], 5, 2, 0, [], some ()⟩
    [3, 4, 5] rfl
  simpa using h

/-- Claim C8 (counterexample): `readline` with the finite limit `0` fails —
but with `NotImplementedError`, which is not the `UnsupportedOperation`
kind the claim names (the kind `truncate`/`detach` raise). -/
theorem claim8_limit_raises_not_implemented :
    Reader.readline (Reader.fresh 4 [10]) ⟨[72, 105, 10, 66, 121, 101], true⟩
        [] 0 = (.error .notImplementedError, [], []) ∧
    PyErr.notImplementedError ≠ PyErr.unsupportedOperation := by
  exact ⟨rfl, by decide⟩

/-- Claim C8 (amended): every `readline` call with a limit other than `-1`
fails fast with `NotImplementedError` — before issuing any store request,
consuming any fault-schedule entry or changing any state (first conjunct).
Only the unlimited `-1` form is supported: on a fresh reader over
`b"Hi\nBye"` with terminator `b"\n"` it reads bytes up to and including the
delimiter, and a second call returns the remaining bytes, which end at EOF
without a delimiter (second and third conjuncts). -/
theorem claim8_readline_limit_and_delimiter :
    (∀ (st : Reader) (o : S3Object) (faults : List Bool) (limit : Int),
      limit ≠ -1 →
      Reader.readline st o faults limit =
        (.error .notImplementedError, faults, [])) ∧
    Reader.readline (Reader.fresh 4 [10]) ⟨[72, 105, 10, 66, 121, 101], true⟩
        [] (-1) =
      (.ok (⟨⟨some 6, 4, some [121, 101]⟩, 3, [66], 4, false, [10]⟩,
            [72, 105, 10]),
       [], [.rangeGet (some 0) none]) ∧
    Reader.readline ⟨⟨some 6, 4, some [121, 101]⟩, 3, [66], 4, false, [10]⟩
        ⟨[72, 105, 10, 66, 121, 101], true⟩ [] (-1) =
      (.ok (⟨⟨some 6, 6, some []⟩, 6, [], 4, true, [10]⟩, [66, 121, 101]),
       [], []) := by
  refine ⟨?_, rfl, rfl⟩
  intro st o faults limit hl
  simp [Reader.readline, hl]

/-- Witness for C8: the fail-fast conjunct at the finite limit `5`. -/
theorem claim8_readline_limit_witness :
    Reader.readline (Reader.fresh 4 [10]) ⟨[1, 2, 3], true⟩ [] 5 =
      (.error .notImplementedError, [], []) :=
  claim8_readline_limit_and_delimiter.1 (Reader.fresh 4 [10]) ⟨[1, 2, 3], true⟩
    [] 5 (by decide)

/-- Reopening a body with no explicit range targets the current position:
when that position is inside the object, the store returns the remaining
bytes from there. -/
theorem open_body_at_position (r : RawReader) (o : S3Object)
    (hp : r.position < o.content.length) :
    RawReader._open_body r o none none =
      (.ok { r with content_length := some o.content.length,
                    position := r.position,
                    body := some (o.content.drop r.position) },
       [.rangeGet (some r.position) none]) := by
  unfold RawReader._open_body
  simp [storeRangeGet, hp]

/-- Claim C3: with the open body consistent with the store (the bytes
remaining from the current position) and the position inside the object, a
read whose transport is interrupted exactly once reopens a fresh range at
the current position — exactly one extra range request — and returns
exactly what the uninterrupted read would have returned (first conjunct);
two consecutive interruptions on the same read surface the
`IncompleteReadError` to the caller, still after exactly one reopen
(second conjunct). -/
theorem claim3_incomplete_read_retry (o : S3Object) (p : Nat) (size : Int)
    (hp : p < o.content.length) :
    (RawReader.read ⟨some o.content.length, p, some (o.content.drop p)⟩ o
        [true] size =
      ((RawReader.read ⟨some o.content.length, p, some (o.content.drop p)⟩ o
          [] size).1,
       [], [.rangeGet (some p) none])) ∧
    (RawReader.read ⟨some o.content.length, p, some (o.content.drop p)⟩ o
        [true, true] size =
      (.error .incompleteReadError, [], [.rangeGet (some p) none])) := by
  obtain ⟨m, hm⟩ : ∃ m, o.content.length = m + 1 :=
    ⟨o.content.length - 1, by omega⟩
  have hob := open_body_at_position
    ⟨some o.content.length, p, some (o.content.drop p)⟩ o (by simpa using hp)
  have hnp : ¬ p ≥ m + 1 := by omega
  rw [hm] at hob hp ⊢
  constructor
  · simp only [RawReader.read, RawReader._read_from_body, hob]
    simp [hnp]
    by_cases hsz : size < 0 <;> simp [hsz]
  · simp only [RawReader.read, RawReader._read_from_body, hob]
    simp [hnp]

/-- Witness for C3: the retry theorem on a five-byte object at position 1
with a two-byte read. -/
theorem claim3_incomplete_read_retry_witness :
    (RawReader.read ⟨some 5, 1, some [2, 3, 4, 5]⟩ ⟨[1, 2, 3, 4, 5], true⟩
        [true] 2 =
      ((RawReader.read ⟨some 5, 1, some [2, 3, 4, 5]⟩ ⟨[1, 2, 3, 4, 5], true⟩
          [] 2).1,
       [], [.rangeGet (some 1) none])) ∧
    (RawReader.read ⟨some 5, 1, some [2, 3, 4, 5]⟩ ⟨[1, 2, 3, 4, 5], true⟩
        [true, true] 2 =
      (.error .incompleteReadError, [], [.rangeGet (some 1) none])) :=
  claim3_incomplete_read_retry ⟨[1, 2, 3, 4, 5], true⟩ 1 2 (by decide)

/-- Skipping lemma for the retry loop: `k` consecutive retryable failures
advance the attempt counter by `k`, each one preceded by one backoff sleep. -/
theorem retryGo_skip {α : Type} (op : Nat → Except PyErr α) (s : Nat)
    (exc : List PyKind) (k : Nat) :
    ∀ (attempt fuel slept : Nat),
      (∀ i, i < k → retryableB exc (op (attempt + i)) = true) →
      retryGo op s exc attempt (k + fuel) slept =
        retryGo op s exc (attempt + k) fuel (slept + k * s) := by
  induction k with
  | zero => intro attempt fuel slept _; simp
  | succ n ih =>
      intro attempt fuel slept h
      have h0 : retryableB exc (op attempt) = true := by
        simpa using h 0 (by omega)
      have hsum : n + 1 + fuel = (n + fuel) + 1 := by omega
      cases hop : op attempt with
      | ok a => rw [hop] at h0; simp [retryableB] at h0
      | error e =>
          have hk : e.kind ∈ exc := by
            rw [hop] at h0; simpa [retryableB] using h0
          have hrec := ih (attempt + 1) fuel (slept + s) (fun i hi => by
            have := h (i + 1) (by omega)
            simpa [Nat.add_assoc, Nat.add_comm 1 i] using this)
          have h1 : attempt + 1 + n = attempt + (n + 1) := by omega
          have h2 : slept + s + n * s = slept + (n + 1) * s := by ring
          conv_lhs => rw [hsum, retryGo]
          rw [hop]
          dsimp only
          rw [if_pos hk, hrec, h1, h2]

/-- Claim C6: the retry wrapper re-invokes the operation only on errors
matching the retryable set, sleeping the configured backoff seconds before
each re-invocation, up to the configured number of attempts: a success at
attempt `k` after `k` retryable failures returns the result having slept
`k` backoffs (first conjunct); a non-matching error propagates immediately,
with no retry and no additional delay (second conjunct); when every attempt
fails with a retryable error the wrapper raises a terminal plain `IOError`
(third conjunct); and the default retryable set holds exactly the
endpoint-unreachable/connection error kind (fourth conjunct). -/
theorem claim6_retry_policy :
    (∀ (α : Type) (op : Nat → Except PyErr α) (attempts s : Nat)
       (exc : List PyKind) (k : Nat) (a : α),
      k < attempts →
      (∀ i, i < k → retryableB exc (op i) = true) →
      op k = .ok a →
      _retry_if_failed op attempts s exc = (.ok a, k * s)) ∧
    (∀ (α : Type) (op : Nat → Except PyErr α) (attempts s : Nat)
       (exc : List PyKind) (k : Nat) (e : PyErr),
      k < attempts →
      (∀ i, i < k → retryableB exc (op i) = true) →
      op k = .error e → e.kind ∉ exc →
      _retry_if_failed op attempts s exc = (.error e, k * s)) ∧
    (∀ (α : Type) (op : Nat → Except PyErr α) (attempts s : Nat)
       (exc : List PyKind),
      (∀ i, i < attempts → retryableB exc (op i) = true) →
      _retry_if_failed op attempts s exc = (.error .ioError, attempts * s)) ∧
    defaultRetryExceptions = [PyKind.endpointConnectionError] := by
  refine ⟨?_, ?_, ?_, rfl⟩
  · intro α op attempts s exc k a hk h hop
    obtain ⟨j, hj⟩ : ∃ j, attempts - k = j + 1 := ⟨attempts - k - 1, by omega⟩
    have hsplit : attempts = k + (j + 1) := by omega
    unfold _retry_if_failed
    rw [hsplit, retryGo_skip op s exc k 0 (j + 1) 0 (fun i hi => by
      simpa using h i hi)]
    unfold retryGo
    rw [show (0 + k) = k by omega, hop]
    simp
  · intro α op attempts s exc k e hk h hop hkind
    obtain ⟨j, hj⟩ : ∃ j, attempts - k = j + 1 := ⟨attempts - k - 1, by omega⟩
    have hsplit : attempts = k + (j + 1) := by omega
    unfold _retry_if_failed
    rw [hsplit, retryGo_skip op s exc k 0 (j + 1) 0 (fun i hi => by
      simpa using h i hi)]
    unfold retryGo
    rw [show (0 + k) = k by omega, hop]
    simp [hkind]
  · intro α op attempts s exc h
    unfold _retry_if_failed
    have hsplit : attempts = attempts + 0 := by omega
    rw [hsplit, retryGo_skip op s exc attempts 0 0 0 (fun i hi => by
      simpa using h i (by omega))]
    unfold retryGo
    simp

/-- Witness for C6: all three behavioural conjuncts at concrete operations
with the source's default attempt count, backoff and retryable set. -/
theorem claim6_retry_policy_witness :
    _retry_if_failed
        (fun i => if i = 0 then (.error .endpointConnectionError :
            Except PyErr Nat) else .ok 42)
        UPLOAD_ATTEMPTS SLEEP_SECONDS defaultRetryExceptions = (.ok 42, 10) ∧
    _retry_if_failed
        (fun i => if i = 0 then (.error .endpointConnectionError :
            Except PyErr Nat) else .error .clientError)
        UPLOAD_ATTEMPTS SLEEP_SECONDS defaultRetryExceptions =
      (.error .clientError, 10) ∧
    _retry_if_failed
        (fun _ => (.error .endpointConnectionError : Except PyErr Nat))
        3 SLEEP_SECONDS defaultRetryExceptions = (.error .ioError, 30) := by
  refine ⟨?_, ?_, ?_⟩
  · have h := claim6_retry_policy.1 Nat
      (fun i => if i = 0 then (.error .endpointConnectionError :
          Except PyErr Nat) else .ok 42)
      UPLOAD_ATTEMPTS SLEEP_SECONDS defaultRetryExceptions 1 42
      (by decide) (by decide) rfl
    simpa [SLEEP_SECONDS] using h
  · have h := claim6_retry_policy.2.1 Nat
      (fun i => if i = 0 then (.error .endpointConnectionError :
          Except PyErr Nat) else .error .clientError)
      UPLOAD_ATTEMPTS SLEEP_SECONDS defaultRetryExceptions 1 .clientError
      (by decide) (by decide) rfl (by decide)
    simpa [SLEEP_SECONDS] using h
  · have h := claim6_retry_policy.2.2.1 Nat
      (fun _ => (.error .endpointConnectionError : Except PyErr Nat))
      3 SLEEP_SECONDS defaultRetryExceptions (by decide)
    simpa [SLEEP_SECONDS] using h

/-- The consumption loop of `iter_bucket` with a positive limit splits the
delivered results at `limit - start`: what is yielded and what is never
requested. -/
theorem iterLoop_take_drop {α : Type} (n : Nat) :
    ∀ (xs : List α) (k : Nat), k < n →
      iterLoop (some n) xs k = (xs.take (n - k), xs.drop (n - k)) := by
  intro xs
  induction xs with
  | nil => intro k _; simp [iterLoop]
  | cons r rs ih =>
      intro k hk
      unfold iterLoop
      by_cases hbr : k + 1 ≥ n
      · have h1 : n - k = 1 := by omega
        simp [hbr, h1]
      · have h2 : n - k = (n - (k + 1)) + 1 := by omega
        simp [hbr, ih (k + 1) (by omega), h2]

/-- Claim C7: iterating a container whose listing yields 10 accepted keys
with `key_limit = 3` yields exactly 3 `(key, content)` pairs with no
duplicate keys — for every delivery order of the worker pool, hence for
every worker count — and each yielded pair is one of the listed keys'
download results; the remaining 7 delivered results are never requested
(the loop breaks out of the pool's scope, tearing the workers down). -/
theorem claim7_key_limit_three (pages : List (List String))
    (accept : String → Bool) (content : String → Bytes)
    (delivered : List (String × Bytes))
    (hlen : (_list_bucket pages accept).length = 10)
    (hnd : (_list_bucket pages accept).Nodup)
    (hperm : delivered.Perm
      ((_list_bucket pages accept).map (fun k => _download_key content k))) :
    (iter_bucket delivered (some 3)).1.length = 3 ∧
    ((iter_bucket delivered (some 3)).1.map Prod.fst).Nodup ∧
    (iter_bucket delivered (some 3)).2.length = 7 ∧
    ∀ x ∈ (iter_bucket delivered (some 3)).1,
      x ∈ (_list_bucket pages accept).map (fun k => _download_key content k) := by
  have hdl : delivered.length = 10 := by
    rw [hperm.length_eq, List.length_map, hlen]
  have hib : iter_bucket delivered (some 3) =
      (delivered.take 3, delivered.drop 3) := by
    unfold iter_bucket
    simpa using iterLoop_take_drop 3 delivered 0 (by omega)
  rw [hib]
  have hfst : ((_list_bucket pages accept).map
      (fun k => _download_key content k)).map Prod.fst =
      _list_bucket pages accept := by
    simp [_download_key, Function.comp_def]
  have hnd' : (delivered.map Prod.fst).Nodup := by
    have hp2 := hperm.map Prod.fst
    rw [hfst] at hp2
    exact hp2.nodup_iff.mpr hnd
  refine ⟨by simp [hdl], ?_, by simp [hdl], ?_⟩
  · have hsub : List.Sublist ((delivered.take 3).map Prod.fst)
        (delivered.map Prod.fst) := (List.take_sublist 3 delivered).map Prod.fst
    exact hnd'.sublist hsub
  · intro x hx
    have hxd : x ∈ delivered := (List.take_sublist 3 delivered).mem hx
    exact hperm.mem_iff.mp hxd

/-- Witness for C7: a single listing page of ten distinct keys, an
accept-all filter, empty contents and the pool delivering in listing
order. -/
theorem claim7_key_limit_three_witness :
    (iter_bucket (List.map
        (fun k => _download_key (fun _ => []) k)
        (_list_bucket [["a", "b", "c", "d", "e", "f", "g", "h", "i", "j"]]
          (fun _ => true))) (some 3)).1.length = 3 ∧
    ((iter_bucket (List.map
        (fun k => _download_key (fun _ => []) k)
        (_list_bucket [["a", "b", "c", "d", "e", "f", "g", "h", "i", "j"]]
          (fun _ => true))) (some 3)).1.map Prod.fst).Nodup ∧
    (iter_bucket (List.map
        (fun k => _download_key (fun _ => []) k)
        (_list_bucket [["a", "b", "c", "d", "e", "f", "g", "h", "i", "j"]]
          (fun _ => true))) (some 3)).2.length = 7 := by
  have h := claim7_key_limit_three
    [["a", "b", "c", "d", "e", "f", "g", "h", "i", "j"]] (fun _ => true)
    (fun _ => [])
    (List.map (fun k => _download_key (fun _ => []) k)
      (_list_bucket [["a", "b", "c", "d", "e", "f", "g", "h", "i", "j"]]
        (fun _ => true)))
    (by decide) (by decide) (List.Perm.refl _)
  exact ⟨h.1, h.2.1, h.2.2.1⟩

end S3
